import Mathlib

/-!
Verification of the poll-for-approval scripts `scripts/status_check.py` and
`scripts/status_check_cd.py`.

Shallow embedding conventions:
* A fetch outcome is an `Option String`: `none` models an HTTPError or any
  other exception raised while fetching (the Python function returns `None`),
  `some s` models a successful response whose base64 payload decodes to the
  text `s` (before the `.strip()` that the fetcher applies).
* Wall-clock readings are natural numbers of seconds.  Each loop iteration
  observes `elapsed = time.time() - start_time` at its start; a run is a
  finite trace of such observations paired with the fetch outcome of that
  iteration.  The poller on a trace returns `none` when the trace is
  exhausted while the loop would still be running, and `some outcome` when
  the loop returns within the trace; the outcome records the boolean result,
  the number of attempts performed, and the number of `time.sleep(5)` calls
  performed.
-/

/-- Python ASCII whitespace stripped by `str.strip()`. -/
def pyIsSpace (c : Char) : Bool :=
  c = ' ' || c = '\t' || c = '\n' || c = '\r' || c = '\x0b' || c = '\x0c'

/-- Strip leading and trailing whitespace from a character list. -/
def pyStripList (l : List Char) : List Char :=
  ((l.dropWhile pyIsSpace).reverse.dropWhile pyIsSpace).reverse

/-- Model of Python `str.strip()` (surrounding-whitespace trimming). -/
def pyStrip (s : String) : String :=
  ⟨pyStripList s.data⟩

/-- Model of Python `str.lower()` on one character (ASCII case folding). -/
def pyLowerChar (c : Char) : Char :=
  if 'A' ≤ c && c ≤ 'Z' then Char.ofNat (c.toNat + 32) else c

/-- Model of Python `str.lower()`. -/
def pyLower (s : String) : String :=
  ⟨s.data.map pyLowerChar⟩

/-- Embedding of `get_github_file_content` (identical in both scripts): on a
successful response the decoded base64 payload is stripped of surrounding
whitespace and returned; on an HTTP error or any other exception the function
returns `None`, modelled as `none`.  The argument is the network outcome. -/
def get_github_file_content (response : Option String) : Option String :=
  match response with
  | none => none
  | some decoded => some (pyStrip decoded)

/-- The four classification outcomes returned (as strings) by
`check_ci_status_once` / `check_cd_status_once`. -/
inductive PollStatus where
  | approved
  | declined
  | waiting
  | error
deriving DecidableEq, Repr

/-- Embedding of `check_ci_status_once` from `scripts/status_check.py`: fetch
the file, return `error` on a failed fetch, otherwise lowercase the (already
stripped) content and compare exactly against the two decision phrases. -/
def check_ci_status_once (response : Option String) : PollStatus :=
  match get_github_file_content response with
  | none => PollStatus.error
  | some content =>
    let content_lower := pyLower content
    if content_lower = "ci approved" then PollStatus.approved
    else if content_lower = "ci declined" then PollStatus.declined
    else PollStatus.waiting

/-- One loop iteration of the poller: the elapsed wall-clock seconds observed
at the start of the iteration, and the fetch outcome of the iteration. -/
structure Attempt where
  elapsed : Nat
  response : Option String
deriving DecidableEq, Repr

/-- Observable outcome of a poller run that returned: the boolean returned,
the number of attempts performed, and the number of sleeps performed. -/
structure RunOutcome where
  result : Bool
  attempts : Nat
  sleeps : Nat
deriving DecidableEq, Repr

/-- Embedding of the Python guard `if max_attempts and attempt >= max_attempts`:
`max_attempts` is truthy exactly when it is neither `None` nor `0`. -/
def capReached (maxAttempts : Option Nat) (attempt : Nat) : Bool :=
  match maxAttempts with
  | none => false
  | some m => (m != 0) && decide (m ≤ attempt)

/-- Embedding of the `while True` loop body of `poll_for_decision`
(`scripts/status_check.py`, lines 96-125).  `attempt` is the attempt counter
before the current iteration increments it.  A terminal decision or a fetch
error returns immediately; a `waiting` classification returns `False` when the
attempt cap is reached, otherwise sleeps once and then returns `False` when
the elapsed reading taken at the start of the iteration exceeds 86400 seconds,
and otherwise proceeds to the next iteration. -/
def pollAux (maxAttempts : Option Nat) (attempt : Nat) :
    List Attempt → Option RunOutcome
  | [] => none
  | a :: rest =>
    match check_ci_status_once a.response with
    | PollStatus.approved => some ⟨true, attempt + 1, 0⟩
    | PollStatus.declined => some ⟨false, attempt + 1, 0⟩
    | PollStatus.error => some ⟨false, attempt + 1, 0⟩
    | PollStatus.waiting =>
      if capReached maxAttempts (attempt + 1) then some ⟨false, attempt + 1, 0⟩
      else if a.elapsed > 86400 then some ⟨false, attempt + 1, 1⟩
      else (pollAux maxAttempts (attempt + 1) rest).map
        (fun o => ⟨o.result, o.attempts, o.sleeps + 1⟩)

/-- Embedding of `poll_for_decision` (`scripts/status_check.py`): run the loop
from attempt counter `0` and return only the boolean.  In Python the default
argument is `max_attempts=None`, modelled as `none`. -/
def poll_for_decision (maxAttempts : Option Nat) (trace : List Attempt) :
    Option Bool :=
  (pollAux maxAttempts 0 trace).map RunOutcome.result

/-- Embedding of `main` from `scripts/status_check.py`: it calls
`poll_for_decision()` with the default cap `None` and exits with code `0` when
the poller returns `True` and with code `1` when it returns `False`.  (Lean
reserves the name `main` for executables, hence the adjusted name.) -/
def main_exit (trace : List Attempt) : Option Nat :=
  (poll_for_decision none trace).map (fun ok => if ok then 0 else 1)

/-- The repository coordinates assembled at the top of
`check_ci_status_once` / `check_cd_status_once`. -/
structure RepoLocation where
  owner : String
  repo : String
  branch : String
deriving DecidableEq, Repr

/-- Model of `os.environ.get(key, default)`: the environment is a finite list
of key-value pairs, constant for the whole run (the scripts never mutate it). -/
def envGet (env : List (String × String)) (key dflt : String) : String :=
  match env.find? (fun p => p.1 == key) with
  | some p => p.2
  | none => dflt

/-- The characters after the last occurrence of `sep`, accumulating the
current split component; models Python `s.split(sep)[-1]`. -/
def splitLastAux (sep : Char) : List Char → List Char → List Char
  | [], acc => acc.reverse
  | c :: rest, acc =>
    if c = sep then splitLastAux sep rest []
    else splitLastAux sep rest (c :: acc)

/-- Model of Python `s.split(sep)[-1]`: the last component of the split. -/
def splitLast (sep : Char) (s : String) : String :=
  ⟨splitLastAux sep s.data []⟩

/-- Embedding of lines 54-57 of `scripts/status_check.py`: owner, repository
name (last component of the full identifier when it contains a slash) and
branch, each with its default. -/
def repoLocationOf (env : List (String × String)) : RepoLocation :=
  let owner := envGet env "GITHUB_REPOSITORY_OWNER" "datasinner"
  let repo_full := envGet env "GITHUB_REPOSITORY" "datasinner/AWS-CI-CD-Project"
  let repo :=
    if repo_full.data.contains '/' then splitLast '/' repo_full
    else "AWS-CI-CD-Project"
  let branch := envGet env "GITHUB_REF_NAME" "main"
  ⟨owner, repo, branch⟩

/-- The repository coordinates used by a given poll attempt: the code
recomputes them from the environment inside every call of
`check_ci_status_once`, and the environment mapping is the same object for
every attempt of a run, so the result does not depend on the attempt index. -/
def attemptLocation (env : List (String × String)) (_attempt : Nat) :
    RepoLocation :=
  repoLocationOf env

/-- Embedding of `check_cd_status_once` from `scripts/status_check_cd.py`:
identical to `check_ci_status_once` except for the two decision phrases. -/
def check_cd_status_once (response : Option String) : PollStatus :=
  match get_github_file_content response with
  | none => PollStatus.error
  | some content =>
    let content_lower := pyLower content
    if content_lower = "cd approved" then PollStatus.approved
    else if content_lower = "cd declined" then PollStatus.declined
    else PollStatus.waiting

/-- Embedding of the loop body of `poll_for_cd_decision`
(`scripts/status_check_cd.py`, lines 96-125), identical to `pollAux` except
that classification uses `check_cd_status_once`. -/
def pollAuxCd (maxAttempts : Option Nat) (attempt : Nat) :
    List Attempt → Option RunOutcome
  | [] => none
  | a :: rest =>
    match check_cd_status_once a.response with
    | PollStatus.approved => some ⟨true, attempt + 1, 0⟩
    | PollStatus.declined => some ⟨false, attempt + 1, 0⟩
    | PollStatus.error => some ⟨false, attempt + 1, 0⟩
    | PollStatus.waiting =>
      if capReached maxAttempts (attempt + 1) then some ⟨false, attempt + 1, 0⟩
      else if a.elapsed > 86400 then some ⟨false, attempt + 1, 1⟩
      else (pollAuxCd maxAttempts (attempt + 1) rest).map
        (fun o => ⟨o.result, o.attempts, o.sleeps + 1⟩)

/-- Embedding of `poll_for_cd_decision` (`scripts/status_check_cd.py`). -/
def poll_for_cd_decision (maxAttempts : Option Nat) (trace : List Attempt) :
    Option Bool :=
  (pollAuxCd maxAttempts 0 trace).map RunOutcome.result

/-- Embedding of lines 54-57 of `scripts/status_check_cd.py`: identical to
`repoLocationOf` except that the default branch is `test`. -/
def repoLocationCdOf (env : List (String × String)) : RepoLocation :=
  let owner := envGet env "GITHUB_REPOSITORY_OWNER" "datasinner"
  let repo_full := envGet env "GITHUB_REPOSITORY" "datasinner/AWS-CI-CD-Project"
  let repo :=
    if repo_full.data.contains '/' then splitLast '/' repo_full
    else "AWS-CI-CD-Project"
  let branch := envGet env "GITHUB_REF_NAME" "test"
  ⟨owner, repo, branch⟩

/-- Classification with the two decision phrases abstracted out: the common
pattern that both `check_ci_status_once` and `check_cd_status_once`
instantiate. -/
def check_status_generic (approve decline : String) (response : Option String) :
    PollStatus :=
  match get_github_file_content response with
  | none => PollStatus.error
  | some content =>
    let content_lower := pyLower content
    if content_lower = approve then PollStatus.approved
    else if content_lower = decline then PollStatus.declined
    else PollStatus.waiting

/-- The poll loop with the two decision phrases abstracted out: the common
loop that both pollers instantiate. -/
def pollAuxGen (approve decline : String) (maxAttempts : Option Nat)
    (attempt : Nat) : List Attempt → Option RunOutcome
  | [] => none
  | a :: rest =>
    match check_status_generic approve decline a.response with
    | PollStatus.approved => some ⟨true, attempt + 1, 0⟩
    | PollStatus.declined => some ⟨false, attempt + 1, 0⟩
    | PollStatus.error => some ⟨false, attempt + 1, 0⟩
    | PollStatus.waiting =>
      if capReached maxAttempts (attempt + 1) then some ⟨false, attempt + 1, 0⟩
      else if a.elapsed > 86400 then some ⟨false, attempt + 1, 1⟩
      else (pollAuxGen approve decline maxAttempts (attempt + 1) rest).map
        (fun o => ⟨o.result, o.attempts, o.sleeps + 1⟩)

/-- The concrete run of end-to-end scenario C of the specification: fetched
content is `pending review` for the first three attempts and `CI Approved` on
attempt four, with the 5-second interval between attempts. -/
def scenarioC : List Attempt :=
  [⟨0, some "pending review"⟩, ⟨5, some "pending review"⟩,
   ⟨10, some "pending review"⟩, ⟨15, some "CI Approved"⟩]

/-- Claim C1: a fetched text classifies as `Approved` exactly when it equals
the approve phrase `ci approved` after stripping surrounding whitespace and
lowercasing; the comparison is exact after this normalization, with no
partial or fuzzy matching. -/
theorem check_ci_approved_iff_normalized_phrase (T : String) :
    check_ci_status_once (some T) = PollStatus.approved ↔
      pyLower (pyStrip T) = "ci approved" := by
  unfold check_ci_status_once get_github_file_content
  by_cases ha : pyLower (pyStrip T) = "ci approved"
  · simp [ha]
  · by_cases hd : pyLower (pyStrip T) = "ci declined" <;> simp [ha, hd]

/-- Claim C2: when the fetch fails at the current attempt (the fetcher
returns `None`), the loop returns `False` at that very attempt, performing no
further attempts (the rest of the trace is irrelevant) and no sleep after the
failing attempt. -/
theorem poll_fetch_error_fails_fast (maxA : Option Nat) (k e : Nat)
    (rest : List Attempt) :
    pollAux maxA k (⟨e, none⟩ :: rest) = some ⟨false, k + 1, 0⟩ := rfl

/-- Claim C3 counterexample: as stated the claim is false for two supplied
values of `max_attempts`.  With `max_attempts = 0` and an all-`Waiting` trace
the loop does not stop after zero attempts: it is still polling after one
attempt (Python treats `0` as falsy, disabling the cap).  With
`max_attempts = 3` and an all-`Waiting` run whose elapsed time already
exceeds the 24-hour ceiling, the loop stops after one attempt, not three. -/
theorem poll_cap_exact_counterexample :
    poll_for_decision (some 0) [⟨0, some "pending review"⟩] = none ∧
    pollAux (some 3) 0
      [⟨90000, some "pending review"⟩, ⟨90005, some "pending review"⟩,
       ⟨90010, some "pending review"⟩] = some ⟨false, 1, 1⟩ :=
  ⟨rfl, rfl⟩

/-- Helper for claim C3: from attempt counter `c < k`, an all-`Waiting` trace
that never exceeds the ceiling and is long enough makes the capped loop
return `False` after exactly the `k`-th attempt with `k - c - 1` sleeps. -/
theorem pollAux_cap_exhaustion (k : Nat) :
    ∀ (c : Nat) (t : List Attempt), c < k → k - c ≤ t.length →
    (∀ a ∈ t, check_ci_status_once a.response = PollStatus.waiting) →
    (∀ a ∈ t, a.elapsed ≤ 86400) →
    pollAux (some k) c t = some ⟨false, k, k - c - 1⟩ := by
  intro c t
  induction t generalizing c with
  | nil =>
    intro hc hlen _ _
    simp at hlen
    omega
  | cons a rest ih =>
    intro hc hlen hw he
    have hwa := hw a (List.mem_cons_self a rest)
    have hea := he a (List.mem_cons_self a rest)
    simp only [pollAux, hwa]
    by_cases hcap : k ≤ c + 1
    · have hk1 : c + 1 = k := by omega
      have hcapb : capReached (some k) (c + 1) = true := by
        simp [capReached, hcap]
        omega
      simp [hcapb]
      omega
    · have hcapb : capReached (some k) (c + 1) = false := by
        simp [capReached]
        omega
      have h86 : ¬ (86400 < a.elapsed) := by omega
      have hrec := ih (c + 1) (by omega)
        (by simp at hlen; omega)
        (fun b hb => hw b (List.mem_cons_of_mem a hb))
        (fun b hb => he b (List.mem_cons_of_mem a hb))
      simp [hcapb, h86, hrec]
      omega

/-- Claim C3 amended: for a supplied `max_attempts = k` with `k ≥ 1`, if every
attempt classifies as `Waiting`, the trace provides at least `k` attempts,
and no attempt starts with elapsed time above the 24-hour ceiling, then the
loop performs exactly `k` attempts (sleeping `k - 1` times) and returns
`False`; `max_attempts = 0` disables the cap instead. -/
theorem poll_cap_exhaustion (k : Nat) (hk : 0 < k) (t : List Attempt)
    (hlen : k ≤ t.length)
    (hw : ∀ a ∈ t, check_ci_status_once a.response = PollStatus.waiting)
    (he : ∀ a ∈ t, a.elapsed ≤ 86400) :
    pollAux (some k) 0 t = some ⟨false, k, k - 1⟩ := by
  have h := pollAux_cap_exhaustion k 0 t hk (by omega) hw he
  simpa using h

/-- Witness for claim C3: with `max_attempts = 2` and two `Waiting` attempts
the loop performs exactly two attempts, sleeps once, and returns `False`. -/
theorem poll_cap_exhaustion_witness :
    pollAux (some 2) 0
      [⟨0, some "pending review"⟩, ⟨5, some "pending review"⟩] =
      some ⟨false, 2, 1⟩ :=
  poll_cap_exhaustion 2 (by decide)
    [⟨0, some "pending review"⟩, ⟨5, some "pending review"⟩]
    (by decide) (by decide) (by decide)

/-- Claim C4: if an attempt starts with elapsed wall-clock time above the
86400-second ceiling while the run is still polling without a decision (the
attempt classifies as `Waiting`), the loop terminates at that attempt
boundary and returns `False`, whatever the rest of the trace holds. -/
theorem poll_ceiling_terminates (maxA : Option Nat) (k e : Nat)
    (r : Option String) (rest : List Attempt)
    (hw : check_ci_status_once r = PollStatus.waiting) (he : 86400 < e) :
    (pollAux maxA k (⟨e, r⟩ :: rest)).map (fun o => (o.result, o.attempts)) =
      some (false, k + 1) := by
  simp only [pollAux, hw]
  by_cases hcap : capReached maxA (k + 1) <;> simp [hcap, he]

/-- Witness for claim C4: one `Waiting` attempt with elapsed 86401 seconds
makes the loop return `False` after that single attempt. -/
theorem poll_ceiling_terminates_witness :
    (pollAux none 0 [⟨86401, some "pending review"⟩]).map
      (fun o => (o.result, o.attempts)) = some (false, 1) :=
  poll_ceiling_terminates none 0 86401 (some "pending review") []
    (by decide) (by decide)

/-- Claim C5: the process exit code is `0` exactly when the poller returns
`True`, and `1` exactly when the poller returns `False` (decline, fetch
error, attempt cap or time ceiling all return `False`). -/
theorem main_exit_code_spec (t : List Attempt) :
    (main_exit t = some 0 ↔ poll_for_decision none t = some true) ∧
    (main_exit t = some 1 ↔ poll_for_decision none t = some false) := by
  cases h : poll_for_decision none t with
  | none => simp [main_exit, h]
  | some b => cases b <;> simp [main_exit, h]

/-- Claim C6: a fetched text that equals neither decision phrase after
stripping and lowercasing classifies as `Waiting` (not as an error), and the
loop continues: when the cap is not reached and the ceiling is not exceeded,
the run on the remaining trace proceeds with one more sleep recorded. -/
theorem check_ci_unrecognized_waits (T : String)
    (ha : pyLower (pyStrip T) ≠ "ci approved")
    (hd : pyLower (pyStrip T) ≠ "ci declined") :
    check_ci_status_once (some T) = PollStatus.waiting ∧
    ∀ (maxA : Option Nat) (k e : Nat) (rest : List Attempt),
      capReached maxA (k + 1) = false → e ≤ 86400 →
      pollAux maxA k (⟨e, some T⟩ :: rest) =
        (pollAux maxA (k + 1) rest).map
          (fun o => ⟨o.result, o.attempts, o.sleeps + 1⟩) := by
  have hwait : check_ci_status_once (some T) = PollStatus.waiting := by
    unfold check_ci_status_once get_github_file_content
    simp [ha, hd]
  refine ⟨hwait, ?_⟩
  intro maxA k e rest hcap he
  have h86 : ¬ (86400 < e) := by omega
  simp only [pollAux, hwait, hcap]
  simp [h86]

/-- Witness for claim C6: the text `pending review` classifies as `Waiting`
and the uncapped loop proceeds to the next attempt with one more sleep. -/
theorem check_ci_unrecognized_waits_witness :
    check_ci_status_once (some "pending review") = PollStatus.waiting ∧
    pollAux none 0 [⟨0, some "pending review"⟩, ⟨5, some "CI Approved"⟩] =
      (pollAux none 1 [⟨5, some "CI Approved"⟩]).map
        (fun o => ⟨o.result, o.attempts, o.sleeps + 1⟩) := by
  have h := check_ci_unrecognized_waits "pending review" (by decide) (by decide)
  exact ⟨h.1, h.2 none 0 0 [⟨5, some "CI Approved"⟩] (by decide) (by decide)⟩

/-- Claim C7: in the run of scenario C (content `pending review` for three
attempts, `CI Approved` on attempt four, 5-second interval) the poller
returns `True` after exactly four attempts with exactly three sleeps: one
interval between each pair of consecutive attempts, hence two between the
consecutive `Waiting` outcomes and a third before the approving attempt. -/
theorem poll_scenario_c : pollAux none 0 scenarioC = some ⟨true, 4, 3⟩ := rfl

/-- Claim C8: the repository coordinates used by an attempt are recomputed
from the same constant environment on every attempt, so any two attempts of a
run use identical owner, repository and branch values, equal to the location
built from the environment (with the documented defaults when unset). -/
theorem attempt_location_constant (env : List (String × String)) (i j : Nat) :
    attemptLocation env i = attemptLocation env j ∧
    attemptLocation env i = repoLocationOf env ∧
    repoLocationOf [] = ⟨"datasinner", "AWS-CI-CD-Project", "main"⟩ :=
  ⟨rfl, rfl, by decide⟩

/-- Claim C9: `max_attempts = 0` is falsy in the guard
`if max_attempts and attempt >= max_attempts`, so a cap of `0` behaves
exactly like the absent cap `None`: the loop is unlimited, bounded only by
the wall-clock ceiling. -/
theorem poll_zero_cap_is_unlimited :
    ∀ (k : Nat) (t : List Attempt), pollAux (some 0) k t = pollAux none k t := by
  intro k t
  induction t generalizing k with
  | nil => rfl
  | cons a rest ih =>
    simp only [pollAux]
    cases check_ci_status_once a.response <;> simp [capReached, ih]

/-- Claim C10: both pollers instantiate one generic loop that differs only in
the two decision phrases (`ci approved`/`ci declined` versus
`cd approved`/`cd declined`), so on the same trace of fetch outcomes they
agree modulo that phrase substitution; and the repository locations they
build agree on owner and repository, differing only in the default branch
(`main` versus `test`). -/
theorem cd_poller_equals_ci_poller_with_phrases_swapped :
    (∀ (maxA : Option Nat) (k : Nat) (t : List Attempt),
      pollAux maxA k t = pollAuxGen "ci approved" "ci declined" maxA k t) ∧
    (∀ (maxA : Option Nat) (k : Nat) (t : List Attempt),
      pollAuxCd maxA k t = pollAuxGen "cd approved" "cd declined" maxA k t) ∧
    (∀ env : List (String × String),
      (repoLocationCdOf env).owner = (repoLocationOf env).owner ∧
      (repoLocationCdOf env).repo = (repoLocationOf env).repo ∧
      (repoLocationCdOf env).branch = envGet env "GITHUB_REF_NAME" "test" ∧
      (repoLocationOf env).branch = envGet env "GITHUB_REF_NAME" "main") := by
  refine ⟨?_, ?_, ?_⟩
  · intro maxA k t
    induction t generalizing k with
    | nil => rfl
    | cons a rest ih =>
      have hc : check_status_generic "ci approved" "ci declined" a.response =
          check_ci_status_once a.response := rfl
      simp only [pollAux, pollAuxGen, hc]
      cases check_ci_status_once a.response <;> simp [ih]
  · intro maxA k t
    induction t generalizing k with
    | nil => rfl
    | cons a rest ih =>
      have hc : check_status_generic "cd approved" "cd declined" a.response =
          check_cd_status_once a.response := rfl
      simp only [pollAuxCd, pollAuxGen, hc]
      cases check_cd_status_once a.response <;> simp [ih]
  · intro env
    exact ⟨rfl, rfl, rfl, rfl⟩
